import Mathlib

/-!
Verification of `xla/tools/collective_perf_table_gen_main.cc`: the
command-line driver that parses collective types, a tensor-size step
spec and a device-group spec, assembles a `CollectivePerfTableGen::Config`
and hands it to the profiling engine.  Parsers are embedded from the
source; parts of the program that live outside the provided sources
(the HLO collective-device-list parser, the engine's sweep expansion and
its validation, and the engine header's constants) are modelled from the
specification and marked as such in their doc comments.
-/

set_option maxRecDepth 4000

/-- Model of `absl::StrSplit(s, delim)` on a list of characters: splits at
every occurrence of the delimiter; the empty input yields one empty token,
and `k` delimiters always yield `k + 1` tokens. -/
def strSplit (delim : Char) : List Char → List (List Char)
  | [] => [[]]
  | c :: cs =>
    match strSplit delim cs with
    | [] => if c = delim then [[], []] else [[c]]
    | r :: rs => if c = delim then [] :: r :: rs else (c :: r) :: rs

/-- Model of a C++ loop that transforms each element and aborts the whole
process (via `CHECK`) on the first failing element. -/
def mapOption (f : α → Option β) : List α → Option (List β)
  | [] => some []
  | a :: l =>
    match f a, mapOption f l with
    | some b, some bs => some (b :: bs)
    | _, _ => none

/-- `CollectivePerfTableGen::CollectiveType` (the two values the driver can
produce). -/
inductive CollectiveType
  | ALL_REDUCE
  | ALL_GATHER
deriving DecidableEq, Repr

/-- The token match performed by the loop body of `ParseCollectives`
(collective_perf_table_gen_main.cc lines 119-127): `ALL_REDUCE` and
`ALL_GATHER` are recognised, every other token falls through the two `if`s
and is dropped. -/
def recognizeCollective (token : List Char) : Option CollectiveType :=
  if token = "ALL_REDUCE".data then some CollectiveType.ALL_REDUCE
  else if token = "ALL_GATHER".data then some CollectiveType.ALL_GATHER
  else none

/-- `ParseCollectives` (lines 115-131): `CHECK(!unparsed.empty())`, split on
`,`, keep recognised tokens, `CHECK_GT(types.size(), 0)`.  A failing `CHECK`
is modelled as `none`. -/
def ParseCollectives (unparsed : String) : Option (List CollectiveType) :=
  if unparsed.data = [] then none
  else
    let types := (strSplit ',' unparsed.data).filterMap recognizeCollective
    if 0 < types.length then some types else none

/-- Model of `token.find_first_of(delim)` for `ExtractKV`: index of the first
`=`, if any. -/
def findEq : List Char → Option Nat
  | [] => none
  | c :: cs => if c = '=' then some 0 else (findEq cs).map (· + 1)

/-- `ExtractKV` (lines 83-92): `CHECK_NE(delim_pos, npos)` (a token must
contain `=`), `CHECK(delim_pos + 1 < token.size())` (the `=` must not be the
last character), key = prefix before the first `=`, value = everything after
it. -/
def ExtractKV (token : List Char) : Option (List Char × List Char) :=
  match findEq token with
  | none => none
  | some i =>
    if i + 1 < token.length then some (token.take i, token.drop (i + 1))
    else none

/-- ASCII whitespace as accepted around numbers by `absl::SimpleAtoi`. -/
def isAsciiSpace (c : Char) : Bool :=
  c = ' ' || c = '\t' || c = '\n' || c = '\r' || c = Char.ofNat 11 || c = Char.ofNat 12

/-- A non-empty all-digit character list read as a base-10 natural. -/
def parseDigits (cs : List Char) : Option Nat :=
  if cs = [] then none
  else if cs.all Char.isDigit then
    some (cs.foldl (fun a c => a * 10 + (c.toNat - 48)) 0)
  else none

/-- Model of `absl::SimpleAtoi<int64_t>` (declared in absl, outside the given
sources): optional surrounding ASCII whitespace, optional single sign, at
least one digit, and the result must fit in a signed 64-bit integer. -/
def simpleAtoi (cs : List Char) : Option Int :=
  let body := ((cs.dropWhile isAsciiSpace).reverse.dropWhile isAsciiSpace).reverse
  match body with
  | '-' :: rest =>
    (parseDigits rest).bind fun n =>
      if n ≤ 2 ^ 63 then some (-(n : Int)) else none
  | '+' :: rest =>
    (parseDigits rest).bind fun n =>
      if n < 2 ^ 63 then some ((n : Int)) else none
  | rest =>
    (parseDigits rest).bind fun n =>
      if n < 2 ^ 63 then some ((n : Int)) else none

/-- `CollectivePerfTableGen::StepSpec`, the sweep range record filled in by
`ParseStepSpec`.  The field types follow the spec's data model (integers);
the defaults of the default-constructed C++ struct live in the external
engine header, so `ParseStepSpec` below is explicit about the record it
starts from. -/
structure StepSpec where
  start : Int
  stop : Int
  factor : Int
  step : Int
deriving DecidableEq, Repr

/-- Modelled from the spec: the default-constructed `StepSpec` the driver
mutates; its concrete field defaults live in the external engine header
(`collective_perf_table_gen.h`, not among the given sources), and no theorem
below depends on them. -/
def stepSpecInit : StepSpec := ⟨0, 0, 0, 0⟩

/-- One iteration of the `ParseStepSpec` loop (lines 135-148): extract the
key/value pair (fatal if malformed), then update the field selected by the
key, `CHECK`-ing the integer conversion; an unrecognised key hits
`LOG(FATAL)`. -/
def applyToken (spec : StepSpec) (token : List Char) : Option StepSpec :=
  match ExtractKV token with
  | none => none
  | some (k, v) =>
    if k = "start".data then (simpleAtoi v).map fun n => { spec with start := n }
    else if k = "stop".data then (simpleAtoi v).map fun n => { spec with stop := n }
    else if k = "factor".data then (simpleAtoi v).map fun n => { spec with factor := n }
    else if k = "step".data then (simpleAtoi v).map fun n => { spec with step := n }
    else none

/-- The `ParseStepSpec` loop over all comma-separated tokens, threading the
partially-filled spec; the first failing token aborts. -/
def applyTokens (spec : StepSpec) : List (List Char) → Option StepSpec
  | [] => some spec
  | t :: ts =>
    match applyToken spec t with
    | none => none
    | some spec2 => applyTokens spec2 ts

/-- `ParseStepSpec` (lines 133-150), starting from a given default-constructed
spec. -/
def ParseStepSpec (init : StepSpec) (unparsed : String) : Option StepSpec :=
  applyTokens init (strSplit ',' unparsed.data)

/-- `xla::IotaReplicaGroupList`: the iota-structured replica-group form
(number of groups, devices per group, reshape dims, transpose permutation).
Modelled from the spec: the class itself lives in
`xla/hlo/ir/collective_device_list.h`, outside the given sources. -/
structure IotaReplicaGroupList where
  num_replica_groups : Nat
  num_devices_per_group : Nat
  reshape_dims : List Nat
  transpose_perm : List Nat
deriving DecidableEq, Repr

/-- A parsed `xla::CollectiveDeviceList`: either iota-structured or an
explicit enumeration of replica groups (which carries no iota form).
Modelled from the spec: the class lives outside the given sources. -/
inductive CollectiveDeviceList
  | iota (l : IotaReplicaGroupList)
  | explicitGroups (gs : List (List Nat))
deriving DecidableEq, Repr

/-- `iota_replica_group_list()` accessor: `some` exactly on the iota form. -/
def iotaOf : CollectiveDeviceList → Option IotaReplicaGroupList
  | CollectiveDeviceList.iota l => some l
  | CollectiveDeviceList.explicitGroups _ => none

/-- A comma-separated list of base-10 naturals, every token non-empty. -/
def parseNatList (cs : List Char) : Option (List Nat) :=
  mapOption parseDigits (strSplit ',' cs)

/-- The iota segment grammar the spec exhibits: `[n,m]<=[dims]` with `n,m`
the group shape and `dims` a non-empty dim list; anything beyond this form
is rejected.  The transpose permutation of the plain form is the identity. -/
def parseIotaSegment (cs : List Char) : Option IotaReplicaGroupList :=
  match cs with
  | '[' :: rest =>
    let shape := rest.takeWhile (· ≠ ']')
    match rest.dropWhile (· ≠ ']') with
    | ']' :: '<' :: '=' :: '[' :: rest2 =>
      let dims := rest2.takeWhile (· ≠ ']')
      match rest2.dropWhile (· ≠ ']') with
      | [']'] =>
        match parseNatList shape, parseNatList dims with
        | some [n, m], some ds =>
          some ⟨n, m, ds, List.range ds.length⟩
        | _, _ => none
      | _ => none
    | _ => none
  | _ => none

/-- One explicit replica group `\x7b1,2,3\x7d`: consumes it and returns the
remaining input. -/
def parseGroup (cs : List Char) : Option (List Nat × List Char) :=
  match cs with
  | '{' :: rest =>
    let body := rest.takeWhile (· ≠ '}')
    match rest.dropWhile (· ≠ '}') with
    | '}' :: rest2 => (parseNatList body).map fun g => (g, rest2)
    | _ => none
  | _ => none

/-- The comma-separated groups of an explicit device list, ending at the
closing outer brace; `fuel` bounds the recursion and exceeds the input
length, so it never runs out on inputs the grammar accepts. -/
def parseGroupsAux : Nat → List Char → List (List Nat) → Option (List (List Nat))
  | 0, _, _ => none
  | fuel + 1, cs, acc =>
    match parseGroup cs with
    | none => none
    | some (g, rest) =>
      match rest with
      | [ '}' ] => some (g :: acc).reverse
      | ',' :: rest2 => parseGroupsAux fuel rest2 (g :: acc)
      | _ => none

/-- An explicit device list `\x7b\x7b0,1\x7d,\x7b2,3\x7d\x7d`. -/
def parseExplicitGroups (cs : List Char) : Option (List (List Nat)) :=
  match cs with
  | '{' :: rest => parseGroupsAux (rest.length + 1) rest []
  | _ => none

/-- Modelled from the spec: `xla::ParseCollectiveDeviceListOnly` (the HLO
parser, outside the given sources) — it accepts the iota form
`[n,m]<=[dims]` and the explicit enumeration form, and fails on anything
else. -/
def ParseCollectiveDeviceListOnly (cs : List Char) : Option CollectiveDeviceList :=
  match cs with
  | '[' :: _ => (parseIotaSegment cs).map CollectiveDeviceList.iota
  | '{' :: _ => (parseExplicitGroups cs).map CollectiveDeviceList.explicitGroups
  | _ => none

/-- `GetCollectiveDeviceList` (lines 94-102): parse one segment (`CHECK_OK`
fatal on parse failure), then `CHECK` that the result carries an iota
replica-group list and return it. -/
def GetCollectiveDeviceList (cs : List Char) : Option IotaReplicaGroupList :=
  match ParseCollectiveDeviceListOnly cs with
  | none => none
  | some cdl => iotaOf cdl

/-- `GetCollectiveDeviceLists` (lines 104-113): split on `;`, convert every
token (any fatal token aborts), then `CHECK_GT(device_lists.size(), 0)`. -/
def GetCollectiveDeviceLists (unparsed : String) : Option (List IotaReplicaGroupList) :=
  match mapOption GetCollectiveDeviceList (strSplit ';' unparsed.data) with
  | none => none
  | some ls => if 0 < ls.length then some ls else none

/-- Modelled from the spec: the Profiling Engine's multiplicative sweep
expansion (`CollectivePerfTableGen`, outside the given sources) — emit
`v, v*factor, v*factor^2, ...` while the value is `<= stop`.  `fuel` bounds
the recursion; for an advancing sweep (`1 <= v`, `2 <= factor`) a fuel of
`stop + 1 - v` always lets the loop end on its own `<= stop` test. -/
def sweepAux (fuel : Nat) (v stop factor : Int) : List Int :=
  match fuel with
  | 0 => []
  | f + 1 => if v ≤ stop then v :: sweepAux f (v * factor) stop factor else []

/-- Modelled from the spec: the multiplicative sweep of a `StepSpec`. -/
def sweepMul (spec : StepSpec) : List Int :=
  sweepAux (spec.stop + 1 - spec.start).toNat spec.start spec.stop spec.factor

/-- Modelled from the spec: the additive sweep `v, v+step, v+2*step, ...`
while the value is `<= stop`. -/
def sweepAddAux (fuel : Nat) (v stop step : Int) : List Int :=
  match fuel with
  | 0 => []
  | f + 1 => if v ≤ stop then v :: sweepAddAux f (v + step) stop step else []

/-- Modelled from the spec: the additive sweep of a `StepSpec`. -/
def sweepAdd (spec : StepSpec) : List Int :=
  sweepAddAux (spec.stop + 1 - spec.start).toNat spec.start spec.stop spec.step

/-- Modelled from the spec: the configuration error raised when a step spec
would produce a non-advancing (hence non-terminating) sweep. -/
inductive ConfigError
  | nonAdvancingStep
deriving DecidableEq, Repr

/-- Modelled from the spec: the engine's guarded sweep — validate that the
spec advances (`factor > 1` for the multiplicative mode, else `step > 0` for
the additive mode) and fail fast with a `ConfigError` before any sweep value
is produced when it does not. -/
def checkedSweep (spec : StepSpec) : Except ConfigError (List Int) :=
  if 1 < spec.factor then Except.ok (sweepMul spec)
  else if 0 < spec.step then Except.ok (sweepAdd spec)
  else Except.error ConfigError.nonAdvancingStep

/-- `kDefaultCoordinatorAddress` (line 77). -/
def kDefaultCoordinatorAddress : String := "127.0.0.1:1234"

/-- Modelled from the spec: `CollectivePerfTableGen::Config::kStdout`, the
sentinel output value meaning "print to standard output"; the constant is
declared in the external engine header, its value per the spec is
`"stdout"`. -/
def kStdout : String := "stdout"

/-- `CollectivePerfTableGen::Config` as filled in by `main` (lines 197-205):
the fields the driver assigns. -/
structure Config where
  coordinator_address : String
  num_nodes : Int
  task_id : Int
  collective_types : List CollectiveType
  tensor_size_bytes_spec : StepSpec
  replica_groups_list : List IotaReplicaGroupList
  output : String
deriving DecidableEq, Repr

/-- The command-line surface of `main`: one field per flag, in the order the
locals are declared (lines 156-163). -/
structure Flags where
  num_nodes : Int
  task_id : Int
  collectives_unparsed : String
  tensor_size_bytes_spec_unparsed : String
  collective_devices_spec_unparsed : String
  coordinator_address : String
  output : String
deriving DecidableEq, Repr

/-- The default flag values of `main` (lines 157-163): `num_nodes = 1`,
`task_id = 0`, empty option strings, the default coordinator address, and
the stdout sentinel. -/
def defaultFlags : Flags :=
  ⟨1, 0, "", "", "", kDefaultCoordinatorAddress, kStdout⟩

/-- The configuration-building part of `main` (lines 197-205): run the three
parsers and copy every other flag verbatim into the `Config`; any fatal
parser `CHECK` aborts the process (modelled as `none`).  No validation
relates `task_id` to `num_nodes`. -/
def buildConfig (f : Flags) : Option Config :=
  match ParseCollectives f.collectives_unparsed with
  | none => none
  | some types =>
    match ParseStepSpec stepSpecInit f.tensor_size_bytes_spec_unparsed with
    | none => none
    | some spec =>
      match GetCollectiveDeviceLists f.collective_devices_spec_unparsed with
      | none => none
      | some groups =>
        some ⟨f.coordinator_address, f.num_nodes, f.task_id, types, spec,
              groups, f.output⟩

/-- Claim-side notion (following the claim's words, for comparison with
`ExtractKV`): the key of a step-spec token is the text before the first
`=`. -/
def claimKey (t : List Char) : List Char := t.takeWhile (· ≠ '=')

/-- Claim-side notion (following the claim's words): the value of a
step-spec token is everything after the first `=`. -/
def claimValue (t : List Char) : List Char := (t.dropWhile (· ≠ '=')).tail

/-- The four keys `ParseStepSpec` recognises. -/
def validStepKeys : List (List Char) :=
  ["start".data, "stop".data, "factor".data, "step".data]

/-- Claim-side failure condition for one step-spec token, stated in the
claim's own terms: no `=` delimiter, or a key outside
`start/stop/factor/step`, or a value that does not read as an integer. -/
def badToken (t : List Char) : Prop :=
  '=' ∉ t ∨ claimKey t ∉ validStepKeys ∨ simpleAtoi (claimValue t) = none

instance (t : List Char) : Decidable (badToken t) := by
  unfold badToken; infer_instance

/-- A flag assignment whose `task_id` (5) is outside `[0, num_nodes)` for
`num_nodes = 1` while all option strings are valid. -/
def overflowTaskFlags : Flags :=
  ⟨1, 5, "ALL_REDUCE", "start=1,stop=1,factor=2", "[1,8]<=[8]",
   kDefaultCoordinatorAddress, kStdout⟩

/-- The configuration `main` builds from `overflowTaskFlags`. -/
def overflowTaskConfig : Config :=
  ⟨"127.0.0.1:1234", 1, 5, [CollectiveType.ALL_REDUCE], ⟨1, 1, 2, 0⟩,
   [⟨1, 8, [8], [0]⟩], "stdout"⟩

theorem strSplit_ne_nil (d : Char) (cs : List Char) : strSplit d cs ≠ [] := by
  cases cs with
  | nil => simp [strSplit]
  | cons c cs =>
    unfold strSplit
    split <;> split <;> simp

theorem mapOption_eq_none (f : α → Option β) {l : List α} {a : α}
    (ha : a ∈ l) (hf : f a = none) : mapOption f l = none := by
  induction l with
  | nil => cases ha
  | cons x xs ih =>
    rcases List.mem_cons.1 ha with rfl | h
    · cases mapOption f xs <;> simp [mapOption, hf]
    · cases f x <;> simp [mapOption, ih h]

theorem mapOption_length (f : α → Option β) :
    ∀ {l : List α} {ys : List β}, mapOption f l = some ys → ys.length = l.length := by
  intro l
  induction l with
  | nil => intro ys h; simp [mapOption] at h; simp [← h]
  | cons x xs ih =>
    intro ys h
    cases hx : f x with
    | none => simp [mapOption, hx] at h
    | some b =>
      cases hxs : mapOption f xs with
      | none => simp [mapOption, hx, hxs] at h
      | some bs =>
        simp [mapOption, hx, hxs] at h
        simp [← h, ih hxs]

theorem mapOption_get (f : α → Option β) :
    ∀ {l : List α} {ys : List β}, mapOption f l = some ys →
      ∀ i (h1 : i < l.length) (h2 : i < ys.length),
        f (l.get ⟨i, h1⟩) = some (ys.get ⟨i, h2⟩) := by
  intro l
  induction l with
  | nil => intro ys h i h1 h2; simp at h1
  | cons x xs ih =>
    intro ys h i h1 h2
    cases hx : f x with
    | none => simp [mapOption, hx] at h
    | some b =>
      cases hxs : mapOption f xs with
      | none => simp [mapOption, hx, hxs] at h
      | some bs =>
        simp [mapOption, hx, hxs] at h
        subst h
        cases i with
        | zero => simpa using hx
        | succ j => exact ih hxs j (Nat.lt_of_succ_lt_succ h1) (Nat.lt_of_succ_lt_succ h2)

theorem findEq_eq_none {cs : List Char} : findEq cs = none ↔ '=' ∉ cs := by
  induction cs with
  | nil => simp [findEq]
  | cons c cs ih =>
    by_cases hc : c = '='
    · subst hc; simp [findEq]
    · simp [findEq, hc, Option.map_eq_none', ih, eq_comm (a := '=') (b := c)]

theorem findEq_append {k : List Char} (hk : '=' ∉ k) (v : List Char) :
    findEq (k ++ '=' :: v) = some k.length := by
  induction k with
  | nil => simp [findEq]
  | cons c k ih =>
    have hc : ¬ c = '=' := fun h => hk (by simp [h])
    have hk2 : '=' ∉ k := fun h => hk (List.mem_cons_of_mem _ h)
    simp [findEq, hc, ih hk2]

theorem findEq_decomp :
    ∀ {cs : List Char} {i : Nat}, findEq cs = some i →
      ∃ k v, cs = k ++ '=' :: v ∧ '=' ∉ k ∧ k.length = i := by
  intro cs
  induction cs with
  | nil => intro i h; simp [findEq] at h
  | cons c cs ih =>
    intro i h
    by_cases hc : c = '='
    · subst hc
      simp [findEq] at h
      exact ⟨[], cs, by simp, by simp, by simp [← h]⟩
    · simp [findEq, hc, Option.map_eq_some'] at h
      obtain ⟨j, hj, rfl⟩ := h
      obtain ⟨k, v, rfl, hk, rfl⟩ := ih hj
      refine ⟨c :: k, v, rfl, ?_, by simp⟩
      simp [hk, eq_comm (a := '=') (b := c), hc]

theorem ExtractKV_split {k v : List Char} (hk : '=' ∉ k) (hv : v ≠ []) :
    ExtractKV (k ++ '=' :: v) = some (k, v) := by
  simp only [ExtractKV, findEq_append hk]
  have hlen : k.length + 1 < (k ++ '=' :: v).length := by
    simp only [List.length_append, List.length_cons]
    have : 0 < v.length := List.length_pos.2 hv
    omega
  rw [if_pos hlen]
  have htake : (k ++ '=' :: v).take k.length = k := List.take_left k ('=' :: v)
  have hdrop : (k ++ '=' :: v).drop (k.length + 1) = v := by
    have : k ++ '=' :: v = (k ++ ['=']) ++ v := by simp
    rw [this]
    exact List.drop_left' (by simp)
  rw [htake, hdrop]

theorem ExtractKV_no_value {k : List Char} (hk : '=' ∉ k) :
    ExtractKV (k ++ ['=']) = none := by
  simp only [ExtractKV, findEq_append hk []]
  rw [if_neg (by simp)]

theorem claimKey_split (k v : List Char) (hk : '=' ∉ k) :
    claimKey (k ++ '=' :: v) = k := by
  unfold claimKey
  rw [List.takeWhile_append_of_pos (by intro a ha; simp; intro h; exact hk (h ▸ ha))]
  simp

theorem claimValue_split (k v : List Char) (hk : '=' ∉ k) :
    claimValue (k ++ '=' :: v) = v := by
  unfold claimValue
  rw [List.dropWhile_append_of_pos (by intro a ha; simp; intro h; exact hk (h ▸ ha))]
  simp

theorem applyToken_eq_none_iff (spec : StepSpec) (t : List Char) :
    applyToken spec t = none ↔ badToken t := by
  cases h : findEq t with
  | none =>
    have hmem : '=' ∉ t := findEq_eq_none.1 h
    have hekv : ExtractKV t = none := by simp [ExtractKV, h]
    simp [applyToken, hekv, badToken, hmem]
  | some i =>
    obtain ⟨k, v, rfl, hk, rfl⟩ := findEq_decomp h
    have hmem : '=' ∈ k ++ '=' :: v := by simp
    cases v with
    | nil =>
      have hekv : ExtractKV (k ++ '=' :: ([] : List Char)) = none := by
        simpa using ExtractKV_no_value hk
      have hcv : claimValue (k ++ '=' :: ([] : List Char)) = [] :=
        claimValue_split k [] hk
      have hatoi : simpleAtoi ([] : List Char) = none := by decide
      simp [applyToken, hekv, badToken, hmem, hcv, hatoi]
    | cons c cs =>
      have hekv := ExtractKV_split hk (v := c :: cs) (by simp)
      have hck := claimKey_split k (c :: cs) hk
      have hcv := claimValue_split k (c :: cs) hk
      simp only [applyToken, hekv, badToken, hck, hcv]
      by_cases h1 : k = "start".data
      · simp [h1, hmem, validStepKeys, Option.map_eq_none']
      · by_cases h2 : k = "stop".data
        · simp [h2, hmem, validStepKeys, Option.map_eq_none']
        · by_cases h3 : k = "factor".data
          · simp [h3, hmem, validStepKeys, Option.map_eq_none']
          · by_cases h4 : k = "step".data
            · simp [h4, hmem, validStepKeys, Option.map_eq_none']
            · simp [h1, h2, h3, h4, hmem, validStepKeys]

theorem applyTokens_eq_none_iff :
    ∀ (ts : List (List Char)) (spec : StepSpec),
      applyTokens spec ts = none ↔ ∃ t ∈ ts, badToken t := by
  intro ts
  induction ts with
  | nil => intro spec; simp [applyTokens]
  | cons t ts ih =>
    intro spec
    cases h : applyToken spec t with
    | none =>
      have hb : badToken t := (applyToken_eq_none_iff spec t).1 h
      simp [applyTokens, h, hb]
    | some spec2 =>
      have hb : ¬ badToken t := by
        intro hbt
        have hc := (applyToken_eq_none_iff spec t).2 hbt
        rw [h] at hc
        exact Option.noConfusion hc
      simp [applyTokens, h, hb, ih spec2]

theorem sweepAux_head_eq {fuel : Nat} {w stop f x : Int}
    (h : (sweepAux fuel w stop f).head? = some x) : x = w := by
  cases fuel with
  | zero => simp [sweepAux] at h
  | succ n =>
    by_cases hw : w ≤ stop
    · simp [sweepAux, hw] at h
      exact h.symm
    · simp [sweepAux, hw] at h

theorem sweepAux_chain (f stop : Int) (hf : 2 ≤ f) :
    ∀ (fuel : Nat) (v : Int), 1 ≤ v → List.Chain' (· < ·) (sweepAux fuel v stop f) := by
  intro fuel
  induction fuel with
  | zero => intro v hv; simp [sweepAux]
  | succ n ih =>
    intro v hv
    by_cases hstop : v ≤ stop
    · simp only [sweepAux, if_pos hstop]
      rw [List.chain'_cons']
      constructor
      · intro y hy
        rw [Option.mem_def] at hy
        have hy2 := sweepAux_head_eq hy
        subst hy2
        have h2 : v * 2 ≤ v * f := mul_le_mul_of_nonneg_left hf (by linarith)
        linarith
      · refine ih (v * f) ?_
        nlinarith
    · simp [sweepAux, hstop]

theorem sweepAux_last (f stop : Int) (hf : 2 ≤ f) :
    ∀ (fuel : Nat) (v : Int), 1 ≤ v → v ≤ stop → stop + 1 ≤ v + fuel →
      ∃ k : Nat, (sweepAux fuel v stop f).getLast? = some (v * f ^ k) ∧
        v * f ^ k ≤ stop ∧ stop < v * f ^ (k + 1) := by
  intro fuel
  induction fuel with
  | zero =>
    intro v hv hstop hfuel
    exfalso
    simp at hfuel
    linarith
  | succ n ih =>
    intro v hv hstop hfuel
    by_cases hnext : v * f ≤ stop
    · have hv2 : 1 ≤ v * f := by nlinarith
      have hadv : v + 1 ≤ v * f := by nlinarith
      have hfuel2 : stop + 1 ≤ v * f + n := by
        push_cast at hfuel ⊢
        linarith
      obtain ⟨k, hlast, hle, hgt⟩ := ih (v * f) hv2 hnext hfuel2
      refine ⟨k + 1, ?_, ?_, ?_⟩
      · simp only [sweepAux, if_pos hstop]
        cases hrest : sweepAux n (v * f) stop f with
        | nil => rw [hrest] at hlast; simp at hlast
        | cons b bs =>
          rw [List.getLast?_cons_cons]
          rw [hrest] at hlast
          rw [hlast]
          congr 1
          ring
      · rw [show v * f ^ (k + 1) = v * f * f ^ k by ring]
        exact hle
      · rw [show v * f ^ (k + 1 + 1) = v * f * f ^ (k + 1) by ring]
        exact hgt
    · have hrest : sweepAux n (v * f) stop f = [] := by
        cases n with
        | zero => rfl
        | succ m => simp [sweepAux, hnext]
      refine ⟨0, ?_, by simpa using hstop, ?_⟩
      · simp [sweepAux, hstop, hrest]
      · simpa using lt_of_not_le hnext

theorem sweepAux_const_length :
    ∀ (fuel : Nat) (v stop : Int), v ≤ stop → (sweepAux fuel v stop 1).length = fuel := by
  intro fuel
  induction fuel with
  | zero => intro v stop h; rfl
  | succ n ih =>
    intro v stop h
    simp only [sweepAux, if_pos h, List.length_cons, mul_one]
    rw [ih v stop h]

theorem buildConfig_fields {f : Flags} {cfg : Config} (h : buildConfig f = some cfg) :
    cfg.coordinator_address = f.coordinator_address ∧ cfg.num_nodes = f.num_nodes ∧
      cfg.task_id = f.task_id ∧ cfg.output = f.output := by
  simp only [buildConfig] at h
  cases hp : ParseCollectives f.collectives_unparsed with
  | none => simp [hp] at h
  | some types =>
    cases hs : ParseStepSpec stepSpecInit f.tensor_size_bytes_spec_unparsed with
    | none => simp [hp, hs] at h
    | some spec =>
      cases hg : GetCollectiveDeviceLists f.collective_devices_spec_unparsed with
      | none => simp [hp, hs, hg] at h
      | some groups =>
        simp only [hp, hs, hg, Option.some.injEq] at h
        subst h
        exact ⟨rfl, rfl, rfl, rfl⟩

/-- C1: `ParseCollectives` keeps exactly the comma-separated tokens equal to
`ALL_REDUCE` or `ALL_GATHER`, in input order, and silently drops every other
token; `"ALL_REDUCE,BOGUS,ALL_GATHER"` parses to the two-element list
`[ALL_REDUCE, ALL_GATHER]`, while the all-unrecognised input `"BOGUS"` hits
the fatal `CHECK_GT(types.size(), 0)` rather than returning an empty
list. -/
theorem c1_parse_collectives_filters :
    (∀ (s : String) (ts : List CollectiveType), ParseCollectives s = some ts →
      ts = (strSplit ',' s.data).filterMap recognizeCollective ∧ ts ≠ []) ∧
    ParseCollectives "ALL_REDUCE,BOGUS,ALL_GATHER" =
      some [CollectiveType.ALL_REDUCE, CollectiveType.ALL_GATHER] ∧
    ParseCollectives "BOGUS" = none := by
  refine ⟨?_, by decide, by decide⟩
  intro s ts h
  simp only [ParseCollectives] at h
  split at h
  · exact Option.noConfusion h
  · split at h
    next hlen =>
      rw [Option.some.injEq] at h
      subst h
      exact ⟨rfl, List.length_pos.1 hlen⟩
    next => exact Option.noConfusion h

theorem c1_witness :
    [CollectiveType.ALL_REDUCE] =
      (strSplit ',' "ALL_REDUCE".data).filterMap recognizeCollective ∧
    [CollectiveType.ALL_REDUCE] ≠ [] :=
  c1_parse_collectives_filters.1 "ALL_REDUCE" [CollectiveType.ALL_REDUCE] (by decide)

/-- C2: `ParseStepSpec` fails fatally exactly when some comma-separated token
has no `=` delimiter, or has a key outside `start/stop/factor/step`, or has a
value that does not read as an integer (`badToken` states the claim's three
cases in its own words, with key = text before the first `=` and value =
text after it); concrete instances cover all three cases.  It never
substitutes a silent default: success requires every token to be good. -/
theorem c2_parse_step_spec_failures :
    (∀ (init : StepSpec) (s : String),
      ParseStepSpec init s = none ↔ ∃ t ∈ strSplit ',' s.data, badToken t) ∧
    ParseStepSpec stepSpecInit "start1024" = none ∧
    ParseStepSpec stepSpecInit "begin=1" = none ∧
    ParseStepSpec stepSpecInit "start=12abc" = none := by
  refine ⟨?_, by decide, by decide, by decide⟩
  intro init s
  simpa [ParseStepSpec] using applyTokens_eq_none_iff (strSplit ',' s.data) init

theorem c2_witness :
    (ParseStepSpec stepSpecInit "start1024" = none) ↔
      ∃ t ∈ strSplit ',' "start1024".data, badToken t :=
  c2_parse_step_spec_failures.1 stepSpecInit "start1024"

/-- C3: `GetCollectiveDeviceLists` fails fatally when any `;`-separated
segment fails to parse as a collective device list, and when a segment
parses but carries no iota replica-group list (the explicit-groups form),
and a successful result is never the empty list; no bad segment is silently
skipped or approximated. -/
theorem c3_device_lists_fatal :
    (∀ s : String, (∃ t ∈ strSplit ';' s.data,
        ParseCollectiveDeviceListOnly t = none) →
      GetCollectiveDeviceLists s = none) ∧
    (∀ (s : String) (t : List Char) (gs : List (List Nat)),
      t ∈ strSplit ';' s.data →
      ParseCollectiveDeviceListOnly t = some (CollectiveDeviceList.explicitGroups gs) →
      GetCollectiveDeviceLists s = none) ∧
    (∀ (s : String) (ls : List IotaReplicaGroupList),
      GetCollectiveDeviceLists s = some ls → ls ≠ []) := by
  refine ⟨?_, ?_, ?_⟩
  · rintro s ⟨t, ht, hp⟩
    have hnone : GetCollectiveDeviceList t = none := by
      simp [GetCollectiveDeviceList, hp]
    simp [GetCollectiveDeviceLists,
      mapOption_eq_none GetCollectiveDeviceList ht hnone]
  · intro s t gs ht hp
    have hnone : GetCollectiveDeviceList t = none := by
      simp [GetCollectiveDeviceList, hp, iotaOf]
    simp [GetCollectiveDeviceLists,
      mapOption_eq_none GetCollectiveDeviceList ht hnone]
  · intro s ls h
    simp only [GetCollectiveDeviceLists] at h
    cases hm : mapOption GetCollectiveDeviceList (strSplit ';' s.data) with
    | none => simp [hm] at h
    | some ys =>
      simp only [hm] at h
      split at h
      next hlen =>
        rw [Option.some.injEq] at h
        subst h
        exact List.length_pos.1 hlen
      next => exact Option.noConfusion h

theorem c3_witness :
    (∃ t ∈ strSplit ';' "bogus".data, ParseCollectiveDeviceListOnly t = none) ∧
    GetCollectiveDeviceLists "bogus" = none :=
  ⟨by decide, c3_device_lists_fatal.1 "bogus" (by decide)⟩

/-- C4: on success, `GetCollectiveDeviceLists` returns one parsed group list
per `;`-separated segment, in input order (element `i` of the result is the
parse of segment `i`); `"[1,8]<=[8]"` yields a one-element list and
`"[1,8]<=[8];[2,4]<=[4]"` a two-element list in input order. -/
theorem c4_device_lists_order :
    (∀ (s : String) (ls : List IotaReplicaGroupList),
      GetCollectiveDeviceLists s = some ls →
        ls.length = (strSplit ';' s.data).length ∧
        ∀ (i : Nat) (h1 : i < (strSplit ';' s.data).length) (h2 : i < ls.length),
          GetCollectiveDeviceList ((strSplit ';' s.data).get ⟨i, h1⟩) =
            some (ls.get ⟨i, h2⟩)) ∧
    GetCollectiveDeviceLists "[1,8]<=[8]" = some [⟨1, 8, [8], [0]⟩] ∧
    GetCollectiveDeviceLists "[1,8]<=[8];[2,4]<=[4]" =
      some [⟨1, 8, [8], [0]⟩, ⟨2, 4, [4], [0]⟩] := by
  refine ⟨?_, by decide, by decide⟩
  intro s ls h
  simp only [GetCollectiveDeviceLists] at h
  cases hm : mapOption GetCollectiveDeviceList (strSplit ';' s.data) with
  | none => simp [hm] at h
  | some ys =>
    simp only [hm] at h
    split at h
    next =>
      rw [Option.some.injEq] at h
      subst h
      exact ⟨mapOption_length _ hm, fun i h1 h2 => mapOption_get _ hm i h1 h2⟩
    next => exact Option.noConfusion h

theorem c4_witness :
    [(⟨1, 8, [8], [0]⟩ : IotaReplicaGroupList)].length =
      (strSplit ';' "[1,8]<=[8]".data).length ∧
    ∀ (i : Nat) (h1 : i < (strSplit ';' "[1,8]<=[8]".data).length)
      (h2 : i < [(⟨1, 8, [8], [0]⟩ : IotaReplicaGroupList)].length),
      GetCollectiveDeviceList ((strSplit ';' "[1,8]<=[8]".data).get ⟨i, h1⟩) =
        some ([(⟨1, 8, [8], [0]⟩ : IotaReplicaGroupList)].get ⟨i, h2⟩) :=
  c4_device_lists_order.1 "[1,8]<=[8]" [⟨1, 8, [8], [0]⟩] (by decide)

/-- C5: for a valid step spec (`start >= 1`, `start <= stop`) with
`factor > 1`, the modelled sweep is strictly increasing, its first element is
`start`, its last element is `start * factor ^ k` for the largest `k` with
`start * factor ^ k <= stop` (every exponent whose value stays within `stop`
is at most `k`), and `start = stop` yields the one-element sequence
`[start]`. -/
theorem c5_sweep_shape (spec : StepSpec) (hstart : 1 ≤ spec.start)
    (hle : spec.start ≤ spec.stop) (hf : 1 < spec.factor) :
    List.Chain' (· < ·) (sweepMul spec) ∧
    (sweepMul spec).head? = some spec.start ∧
    (∃ k : Nat, (sweepMul spec).getLast? = some (spec.start * spec.factor ^ k) ∧
      spec.start * spec.factor ^ k ≤ spec.stop ∧
      spec.stop < spec.start * spec.factor ^ (k + 1) ∧
      ∀ j : Nat, spec.start * spec.factor ^ j ≤ spec.stop → j ≤ k) ∧
    (spec.start = spec.stop → sweepMul spec = [spec.start]) := by
  have hf2 : 2 ≤ spec.factor := hf
  refine ⟨?_, ?_, ?_, ?_⟩
  · exact sweepAux_chain spec.factor spec.stop hf2 _ spec.start hstart
  · have hfuelpos : 0 < (spec.stop + 1 - spec.start).toNat := by omega
    simp only [sweepMul]
    cases hfuel : (spec.stop + 1 - spec.start).toNat with
    | zero => omega
    | succ n => simp [sweepAux, hle]
  · have hfuel :
        spec.stop + 1 ≤ spec.start + ((spec.stop + 1 - spec.start).toNat : Int) := by
      omega
    obtain ⟨k, h1, h2, h3⟩ :=
      sweepAux_last spec.factor spec.stop hf2 (spec.stop + 1 - spec.start).toNat
        spec.start hstart hle hfuel
    refine ⟨k, h1, h2, h3, ?_⟩
    intro j hj
    by_contra hjk
    push_neg at hjk
    have hpow : spec.factor ^ (k + 1) ≤ spec.factor ^ j :=
      pow_le_pow_right₀ (by linarith) hjk
    have hmul : spec.start * spec.factor ^ (k + 1) ≤ spec.start * spec.factor ^ j :=
      mul_le_mul_of_nonneg_left hpow (by linarith)
    linarith
  · intro heq
    have hfuel1 : (spec.stop + 1 - spec.start).toNat = 1 := by omega
    simp [sweepMul, hfuel1, sweepAux, hle, heq]

theorem c5_witness :
    1 ≤ (⟨1, 8, 2, 0⟩ : StepSpec).start ∧
    (⟨1, 8, 2, 0⟩ : StepSpec).start ≤ (⟨1, 8, 2, 0⟩ : StepSpec).stop ∧
    1 < (⟨1, 8, 2, 0⟩ : StepSpec).factor ∧
    (List.Chain' (· < ·) (sweepMul ⟨1, 8, 2, 0⟩) ∧
      (sweepMul ⟨1, 8, 2, 0⟩).head? = some (⟨1, 8, 2, 0⟩ : StepSpec).start ∧
      (∃ k : Nat, (sweepMul ⟨1, 8, 2, 0⟩).getLast? =
          some ((⟨1, 8, 2, 0⟩ : StepSpec).start * (⟨1, 8, 2, 0⟩ : StepSpec).factor ^ k) ∧
        (⟨1, 8, 2, 0⟩ : StepSpec).start * (⟨1, 8, 2, 0⟩ : StepSpec).factor ^ k ≤
          (⟨1, 8, 2, 0⟩ : StepSpec).stop ∧
        (⟨1, 8, 2, 0⟩ : StepSpec).stop <
          (⟨1, 8, 2, 0⟩ : StepSpec).start * (⟨1, 8, 2, 0⟩ : StepSpec).factor ^ (k + 1) ∧
        ∀ j : Nat, (⟨1, 8, 2, 0⟩ : StepSpec).start * (⟨1, 8, 2, 0⟩ : StepSpec).factor ^ j ≤
            (⟨1, 8, 2, 0⟩ : StepSpec).stop → j ≤ k) ∧
      ((⟨1, 8, 2, 0⟩ : StepSpec).start = (⟨1, 8, 2, 0⟩ : StepSpec).stop →
        sweepMul ⟨1, 8, 2, 0⟩ = [(⟨1, 8, 2, 0⟩ : StepSpec).start])) :=
  ⟨by decide, by decide, by decide,
    c5_sweep_shape ⟨1, 8, 2, 0⟩ (by decide) (by decide) (by decide)⟩

/-- C6: a step spec with `factor <= 1` and no positive additive `step` is
rejected fast with a `ConfigError` by the modelled guard before any sweep
value is produced; and without the guard the underlying loop would never
advance — with `factor = 1` it consumes all its fuel (one emitted element
per fuel unit, for every fuel), i.e. the `<= stop` test never ends the
loop. -/
theorem c6_non_advancing_rejected :
    (∀ spec : StepSpec, spec.factor ≤ 1 → spec.step ≤ 0 →
      checkedSweep spec = Except.error ConfigError.nonAdvancingStep) ∧
    (∀ (fuel : Nat) (v stop : Int), v ≤ stop →
      (sweepAux fuel v stop 1).length = fuel) := by
  refine ⟨?_, sweepAux_const_length⟩
  intro spec h1 h2
  unfold checkedSweep
  rw [if_neg (by omega), if_neg (by omega)]

theorem c6_witness :
    checkedSweep ⟨1, 8, 1, 0⟩ = Except.error ConfigError.nonAdvancingStep ∧
    (sweepAux 3 1 5 1).length = 3 :=
  ⟨c6_non_advancing_rejected.1 ⟨1, 8, 1, 0⟩ (by decide) (by decide),
    c6_non_advancing_rejected.2 3 1 5 (by decide)⟩

/-- C7 (counterexample): with `num_nodes = 1`, `task_id = 5` and valid option
strings, the Coordinator builds its configuration without any error, yet the
built `task_id` is not in `[0, num_nodes)` — `main` performs no validation
relating `task_id` to `num_nodes`, so the claimed invariant does not hold of
every successfully built configuration. -/
theorem c7_counterexample :
    buildConfig overflowTaskFlags = some overflowTaskConfig ∧
    ¬ (0 ≤ overflowTaskConfig.task_id ∧
        overflowTaskConfig.task_id < overflowTaskConfig.num_nodes) := by
  exact ⟨by decide, by decide⟩

/-- C7 (amended): the Coordinator copies `task_id` and `num_nodes` verbatim
from its input into every configuration it successfully builds, without
validating `0 <= task_id < num_nodes`; the range invariant is the launcher's
responsibility, not enforced here. -/
theorem c7_amended_task_id_passthrough :
    ∀ (f : Flags) (cfg : Config), buildConfig f = some cfg →
      cfg.task_id = f.task_id ∧ cfg.num_nodes = f.num_nodes := by
  intro f cfg h
  obtain ⟨-, h2, h3, -⟩ := buildConfig_fields h
  exact ⟨h3, h2⟩

theorem c7_witness :
    overflowTaskConfig.task_id = overflowTaskFlags.task_id ∧
    overflowTaskConfig.num_nodes = overflowTaskFlags.num_nodes :=
  c7_amended_task_id_passthrough overflowTaskFlags overflowTaskConfig (by decide)

/-- C8: building the configuration from a fixed set of option strings is
deterministic and idempotent — two successful runs of the parsers over the
same flags yield field-for-field identical configurations. -/
theorem c8_build_config_deterministic :
    ∀ (f : Flags) (cfg1 cfg2 : Config),
      buildConfig f = some cfg1 → buildConfig f = some cfg2 →
        cfg1.coordinator_address = cfg2.coordinator_address ∧
        cfg1.num_nodes = cfg2.num_nodes ∧
        cfg1.task_id = cfg2.task_id ∧
        cfg1.collective_types = cfg2.collective_types ∧
        cfg1.tensor_size_bytes_spec = cfg2.tensor_size_bytes_spec ∧
        cfg1.replica_groups_list = cfg2.replica_groups_list ∧
        cfg1.output = cfg2.output := by
  intro f cfg1 cfg2 h1 h2
  rw [h1] at h2
  obtain rfl : cfg1 = cfg2 := Option.some.inj h2
  exact ⟨rfl, rfl, rfl, rfl, rfl, rfl, rfl⟩

theorem c8_witness :
    (⟨"127.0.0.1:1234", 1, 0, [CollectiveType.ALL_REDUCE], ⟨1, 1, 2, 0⟩,
        [⟨1, 8, [8], [0]⟩], "stdout"⟩ : Config).coordinator_address =
      (⟨"127.0.0.1:1234", 1, 0, [CollectiveType.ALL_REDUCE], ⟨1, 1, 2, 0⟩,
        [⟨1, 8, [8], [0]⟩], "stdout"⟩ : Config).coordinator_address ∧
    (⟨"127.0.0.1:1234", 1, 0, [CollectiveType.ALL_REDUCE], ⟨1, 1, 2, 0⟩,
        [⟨1, 8, [8], [0]⟩], "stdout"⟩ : Config).num_nodes =
      (⟨"127.0.0.1:1234", 1, 0, [CollectiveType.ALL_REDUCE], ⟨1, 1, 2, 0⟩,
        [⟨1, 8, [8], [0]⟩], "stdout"⟩ : Config).num_nodes ∧
    (⟨"127.0.0.1:1234", 1, 0, [CollectiveType.ALL_REDUCE], ⟨1, 1, 2, 0⟩,
        [⟨1, 8, [8], [0]⟩], "stdout"⟩ : Config).task_id =
      (⟨"127.0.0.1:1234", 1, 0, [CollectiveType.ALL_REDUCE], ⟨1, 1, 2, 0⟩,
        [⟨1, 8, [8], [0]⟩], "stdout"⟩ : Config).task_id ∧
    (⟨"127.0.0.1:1234", 1, 0, [CollectiveType.ALL_REDUCE], ⟨1, 1, 2, 0⟩,
        [⟨1, 8, [8], [0]⟩], "stdout"⟩ : Config).collective_types =
      (⟨"127.0.0.1:1234", 1, 0, [CollectiveType.ALL_REDUCE], ⟨1, 1, 2, 0⟩,
        [⟨1, 8, [8], [0]⟩], "stdout"⟩ : Config).collective_types ∧
    (⟨"127.0.0.1:1234", 1, 0, [CollectiveType.ALL_REDUCE], ⟨1, 1, 2, 0⟩,
        [⟨1, 8, [8], [0]⟩], "stdout"⟩ : Config).tensor_size_bytes_spec =
      (⟨"127.0.0.1:1234", 1, 0, [CollectiveType.ALL_REDUCE], ⟨1, 1, 2, 0⟩,
        [⟨1, 8, [8], [0]⟩], "stdout"⟩ : Config).tensor_size_bytes_spec ∧
    (⟨"127.0.0.1:1234", 1, 0, [CollectiveType.ALL_REDUCE], ⟨1, 1, 2, 0⟩,
        [⟨1, 8, [8], [0]⟩], "stdout"⟩ : Config).replica_groups_list =
      (⟨"127.0.0.1:1234", 1, 0, [CollectiveType.ALL_REDUCE], ⟨1, 1, 2, 0⟩,
        [⟨1, 8, [8], [0]⟩], "stdout"⟩ : Config).replica_groups_list ∧
    (⟨"127.0.0.1:1234", 1, 0, [CollectiveType.ALL_REDUCE], ⟨1, 1, 2, 0⟩,
        [⟨1, 8, [8], [0]⟩], "stdout"⟩ : Config).output =
      (⟨"127.0.0.1:1234", 1, 0, [CollectiveType.ALL_REDUCE], ⟨1, 1, 2, 0⟩,
        [⟨1, 8, [8], [0]⟩], "stdout"⟩ : Config).output :=
  c8_build_config_deterministic
    ⟨1, 0, "ALL_REDUCE", "start=1,stop=1,factor=2", "[1,8]<=[8]",
      "127.0.0.1:1234", "stdout"⟩
    ⟨"127.0.0.1:1234", 1, 0, [CollectiveType.ALL_REDUCE], ⟨1, 1, 2, 0⟩,
      [⟨1, 8, [8], [0]⟩], "stdout"⟩
    ⟨"127.0.0.1:1234", 1, 0, [CollectiveType.ALL_REDUCE], ⟨1, 1, 2, 0⟩,
      [⟨1, 8, [8], [0]⟩], "stdout"⟩
    (by decide) (by decide)

/-- C9: when an option is not supplied the Coordinator uses exactly
`num_nodes = 1`, `task_id = 0`, `coordinator_address = "127.0.0.1:1234"` and
`output` = the `"stdout"` sentinel; consequently any configuration built with
only the three required option strings supplied carries exactly those
values. -/
theorem c9_default_values :
    defaultFlags.num_nodes = 1 ∧ defaultFlags.task_id = 0 ∧
    defaultFlags.coordinator_address = "127.0.0.1:1234" ∧
    defaultFlags.output = kStdout ∧ kStdout = "stdout" ∧
    ∀ (c t d : String) (cfg : Config),
      buildConfig ⟨defaultFlags.num_nodes, defaultFlags.task_id, c, t, d,
        defaultFlags.coordinator_address, defaultFlags.output⟩ = some cfg →
      cfg.num_nodes = 1 ∧ cfg.task_id = 0 ∧
      cfg.coordinator_address = "127.0.0.1:1234" ∧ cfg.output = "stdout" := by
  refine ⟨rfl, rfl, rfl, rfl, rfl, ?_⟩
  intro c t d cfg h
  obtain ⟨h1, h2, h3, h4⟩ := buildConfig_fields h
  exact ⟨h2, h3, h1, h4⟩

theorem c9_witness :
    ∃ cfg : Config,
      buildConfig ⟨defaultFlags.num_nodes, defaultFlags.task_id, "ALL_GATHER",
        "start=2,stop=16,factor=2", "[2,4]<=[4]",
        defaultFlags.coordinator_address, defaultFlags.output⟩ = some cfg ∧
      cfg.num_nodes = 1 ∧ cfg.task_id = 0 ∧
      cfg.coordinator_address = "127.0.0.1:1234" ∧ cfg.output = "stdout" :=
  ⟨⟨"127.0.0.1:1234", 1, 0, [CollectiveType.ALL_GATHER], ⟨2, 16, 2, 0⟩,
      [⟨2, 4, [4], [0]⟩], "stdout"⟩,
    by decide,
    c9_default_values.2.2.2.2.2 "ALL_GATHER" "start=2,stop=16,factor=2" "[2,4]<=[4]"
      ⟨"127.0.0.1:1234", 1, 0, [CollectiveType.ALL_GATHER], ⟨2, 16, 2, 0⟩,
        [⟨2, 4, [4], [0]⟩], "stdout"⟩ (by decide)⟩

/-- C10: for every step-spec token, the key `ExtractKV` returns is the text
before the first `=` and the value is everything after it (later `=`
characters included); a token whose `=` is its last character is fatal at
parse time — an empty value is never accepted or defaulted. -/
theorem c10_extract_kv_shape :
    (∀ k v : List Char, '=' ∉ k → v ≠ [] → ExtractKV (k ++ '=' :: v) = some (k, v)) ∧
    (∀ k : List Char, '=' ∉ k → ExtractKV (k ++ ['=']) = none) ∧
    ExtractKV "start=".data = none ∧
    ExtractKV "a=b=c".data = some ("a".data, "b=c".data) :=
  ⟨fun _ _ hk hv => ExtractKV_split hk hv,
    fun _ hk => ExtractKV_no_value hk,
    by decide, by decide⟩

theorem c10_witness :
    ExtractKV ("ab".data ++ '=' :: "7c".data) = some ("ab".data, "7c".data) :=
  c10_extract_kv_shape.1 "ab".data "7c".data (by decide) (by decide)
